import Mathlib

/-!
Verification of the schema-inference core of `pypelayer` (`pypelayer/schema.py`).

The pipeline is embedded shallowly:
* scalar cell values are `PyVal` (null / bool / int / float / string / compound);
* a pandas `DataFrame` before `convert_dtypes` is a `RawFrame` (row count plus
  named columns of values), and after `convert_dtypes` a `Frame` whose columns
  carry their pandas dtype name (`"Int64"`, `"Float64"`, `"string"`, `"boolean"`,
  `"object"`, `"datetime64[ns]"`);
* `pd.read_csv`, `pd.json_normalize`, `pd.concat` (outer join, `sort=False`) and
  `DataFrame.convert_dtypes` (pandas 1.5.2, pinned in `setup.py`) are modelled by
  `read_csv`, `json_normalize`, `concatFrames` and `convert_dtypes`;
* the repository functions `_parse_datetime`, `_get_schema_from_df`,
  `generate_schema_from_csv` and `generate_schema_from_json` keep their names
  (leading underscores dropped); Python exceptions become `Except SchemaError`.

Floats are represented as `Rat`: the only float facts the pipeline consumes are
nullability and integrality (`convert_dtypes` narrows an all-integral float
column to `Int64`), both faithfully visible on `Rat`.
-/

namespace Pypelayer

/-- A scalar cell value as it sits in a pandas column: missing (`None`/`NaN`),
a bool, an int, a float, a string, or a compound (list/dict) object that pandas
keeps as an opaque `object` cell. -/
inductive PyVal where
  | vnone
  | vbool (b : Bool)
  | vint (n : Int)
  | vfloat (q : Rat)
  | vstr (s : String)
  | vcompound
  deriving DecidableEq, Repr

/-- First-match association-list lookup (Python `dict`/column lookup). -/
def alookup {α : Type} : List (String × α) → String → Option α
  | [], _ => none
  | (k, v) :: m, c => if k = c then some v else alookup m c

/-- Python `dict` assignment `m[k] = v`: replace the value at an existing key in
place, otherwise append the pair at the end (insertion order is preserved). -/
def dictInsert : List (String × String) → String × String → List (String × String)
  | [], p => [p]
  | (k, v) :: m, p => if k = p.1 then (k, p.2) :: m else (k, v) :: dictInsert m p

/-- `dict.update` with an iterable of key/value pairs (`schema.update(override)`). -/
def schemaUpdate (m : List (String × String)) (ov : List (String × String)) :
    List (String × String) :=
  ov.foldl dictInsert m

/-- Append a key if it is not already present (one step of building a pandas
column index union in encounter order). -/
def insertKey (acc : List String) (k : String) : List String :=
  if k ∈ acc then acc else acc ++ [k]

/-- Union of an ordered key list into an accumulator, keeping first-appearance
order (pandas `Index.union` with unsorted result, as used by `pd.concat`). -/
def unionKeys (acc : List String) (ks : List String) : List String :=
  ks.foldl insertKey acc

/-- First-appearance deduplication of a key sequence. -/
def firstAppear (ks : List String) : List String :=
  ks.foldl insertKey []

/-- A column of the merged frame before `convert_dtypes`: name and cell values. -/
def RawCol : Type := String × List PyVal

/-- A pandas `DataFrame` before `convert_dtypes`: row count and named columns. -/
structure RawFrame where
  nrows : Nat
  cols : List (String × List PyVal)

/-- A column after `convert_dtypes`: name, pandas dtype name, cell values. -/
structure Col where
  name : String
  dtype : String
  vals : List PyVal
  deriving DecidableEq, Repr

/-- A pandas `DataFrame` after `convert_dtypes`. -/
structure Frame where
  nrows : Nat
  cols : List Col
  deriving Repr

/-- `PANDAS_TO_SNOWFLAKE` from `schema.py` lines 10-17, verbatim. -/
def PANDAS_TO_SNOWFLAKE : List (String × String) :=
  [("Int64", "NUMBER(38,0)"),
   ("Float64", "NUMBER(38,8)"),
   ("string", "VARCHAR"),
   ("boolean", "BOOLEAN"),
   ("object", "VARIANT"),
   ("datetime64[ns]", "TIMESTAMP WITHOUT TIME ZONE")]

/-- Python `PANDAS_TO_SNOWFLAKE[dtype]`; `none` models the `KeyError`. -/
def lookupTable (d : String) : Option String :=
  alookup PANDAS_TO_SNOWFLAKE d

def isNoneV (v : PyVal) : Bool := decide (v = PyVal.vnone)

def isNumV : PyVal → Bool
  | .vint _ => true
  | .vfloat _ => true
  | _ => false

def isIntegralV : PyVal → Bool
  | .vint _ => true
  | .vfloat q => decide (q.den = 1)
  | _ => false

def isBoolV : PyVal → Bool
  | .vbool _ => true
  | _ => false

def isStrV : PyVal → Bool
  | .vstr _ => true
  | _ => false

/-- The dtype name `DataFrame.convert_dtypes` (pandas 1.5.2) assigns to a merged
column, as a function of its cell values:
* no non-null values: `Int64` (a fully-NaN float column passes the vacuous
  all-integral check; the comment in `_get_schema_from_df` records this);
* all non-null values numeric: `Int64` when all are integral, else `Float64`
  (`infer_objects` plus the `convert_integer`/`convert_floating` steps);
* all non-null values bools: `boolean`; all strings: `string`;
* any other mix (including compound cells): the column keeps dtype `object`
  (`lib.infer_dtype` reports `mixed`/`mixed-integer` and no conversion applies). -/
def convertName (vs : List PyVal) : String :=
  let nn := vs.filter (fun v => !isNoneV v)
  if nn.isEmpty then "Int64"
  else if nn.all isNumV then (if nn.all isIntegralV then "Int64" else "Float64")
  else if nn.all isBoolV then "boolean"
  else if nn.all isStrV then "string"
  else "object"

/-- `pd.concat(frames).convert_dtypes()`: every column gets its inferred
nullable dtype name; cell values are untouched for our purposes (the rest of
the pipeline only reads nullability and string contents). -/
def convert_dtypes (f : RawFrame) : Frame :=
  ⟨f.nrows, f.cols.map (fun p => ⟨p.1, convertName p.2, p.2⟩)⟩

/-- Values of column `c` contributed by one frame in `pd.concat`: the column's
cells when present, a full column of `NaN` when the frame lacks it. -/
def colVals (f : RawFrame) (c : String) : List PyVal :=
  match alookup f.cols c with
  | some vs => vs
  | none => List.replicate f.nrows PyVal.vnone

/-- `pd.concat` with the default outer join and `sort=False`: the column set is
the successive union of the frames' column indexes in first-appearance order,
and each column stacks the per-frame cells (missing columns filled with NaN). -/
def concatFrames (fs : List RawFrame) : RawFrame :=
  let ks := fs.foldl (fun acc f => unionKeys acc (f.cols.map Prod.fst)) []
  ⟨(fs.map (fun f => f.nrows)).sum,
   ks.map (fun c => (c, (fs.map (fun f => colVals f c)).flatten))⟩

/-- Ten characters `YYYY-MM-DD` with digits in the date positions. -/
def tsDate : List Char → Bool
  | [y1, y2, y3, y4, '-', m1, m2, '-', d1, d2] =>
      y1.isDigit && y2.isDigit && y3.isDigit && y4.isDigit &&
      m1.isDigit && m2.isDigit && d1.isDigit && d2.isDigit
  | _ => false

/-- Eight characters `HH:MM:SS` with digits in the time positions. -/
def tsTime : List Char → Bool
  | [h1, h2, ':', m1, m2, ':', s1, s2] =>
      h1.isDigit && h2.isDigit && m1.isDigit && m2.isDigit && s1.isDigit && s2.isDigit
  | _ => false

/-- Acceptance of one string by `pd.to_datetime(..., format=r"%Y-%m-%d %H:%M:%S")`
as used in `_parse_datetime`: per that function's docstring, the primitive
accepts the exact shape and its date-only and `T`-separated variants. -/
def parsesTs (s : String) : Bool :=
  let cs := s.toList
  tsDate cs ||
    (tsDate (cs.take 10) &&
      (decide (cs.get? 10 = some ' ') || decide (cs.get? 10 = some 'T')) &&
      tsTime (cs.drop 11))

/-- One cell passes the datetime conversion: nulls become `NaT`, strings must
parse under the format. A non-string cell cannot occur in a `string`-dtype
column; it is mapped to failure. -/
def tsCellOk : PyVal → Bool
  | .vnone => true
  | .vstr s => parsesTs s
  | _ => false

/-- `promotable vs`: `pd.to_datetime(series, format=...)` succeeds on every cell. -/
def promotable (vs : List PyVal) : Bool :=
  vs.all tsCellOk

/-- The per-column body of `_parse_datetime`: a `string` column whose cells all
convert becomes `datetime64[ns]`; on any `ValueError` the column is unchanged;
non-`string` columns are skipped. -/
def parseCol (c : Col) : Col :=
  if c.dtype = "string" then
    (if promotable c.vals then ⟨c.name, "datetime64[ns]", c.vals⟩ else c)
  else c

/-- `_parse_datetime` (`schema.py` lines 100-114): try converting each string
column to datetime, independently per column. -/
def parse_datetime (f : Frame) : Frame :=
  ⟨f.nrows, f.cols.map parseCol⟩

/-- `len(df) == df[column].isna().sum()`: every cell of the column is null. -/
def isEmptyCol (nrows : Nat) (c : Col) : Bool :=
  decide (nrows = (c.vals.filter isNoneV).length)

/-- The dtype string one loop turn of `_get_schema_from_df` looks up: `object`
for a fully-null column, the column's own dtype otherwise. -/
def colDtype (nrows : Nat) (c : Col) : String :=
  if isEmptyCol nrows c then "object" else c.dtype

/-- The Snowflake token one loop turn of `_get_schema_from_df` computes. -/
def colToken (nrows : Nat) (c : Col) : Option String :=
  lookupTable (colDtype nrows c)

/-- The loop body of `_get_schema_from_df`, threading the result dict; a failed
`PANDAS_TO_SNOWFLAKE` lookup raises `KeyError` carrying the dtype name. -/
def schemaGo (nrows : Nat) (m : List (String × String)) :
    List Col → Except String (List (String × String))
  | [] => .ok m
  | c :: cs =>
    match colToken nrows c with
    | none => .error (colDtype nrows c)
    | some t => schemaGo nrows (dictInsert m (c.name, t)) cs

/-- `_get_schema_from_df` (`schema.py` lines 117-128). -/
def get_schema_from_df (f : Frame) : Except String (List (String × String)) :=
  schemaGo f.nrows [] f.cols

/-! ## CSV record parsing (`pd.read_csv(body, header=0)`) -/

/-- One sampled CSV object: its header row and its data rows of raw fields. -/
structure CsvFile where
  header : List String
  rows : List (List String)

def digitsToNat (cs : List Char) : Nat :=
  cs.foldl (fun n c => n * 10 + (c.toNat - 48)) 0

def allDigits (cs : List Char) : Bool :=
  !cs.isEmpty && cs.all Char.isDigit

/-- Decimal integer literal as accepted by the CSV reader's numeric coercion. -/
def parseIntCsv (s : String) : Option Int :=
  match s.toList with
  | '-' :: rest => if allDigits rest then some (-(digitsToNat rest : Int)) else none
  | cs => if allDigits cs then some (digitsToNat cs : Int) else none

/-- Decimal float literal (`digits` or `digits.digits`, optional sign) as
accepted by the CSV reader's numeric coercion, as an exact rational. -/
def parseFloatCsv (s : String) : Option Rat :=
  let core : List Char → Option Rat := fun cs =>
    let ip := cs.takeWhile (fun c => !decide (c = '.'))
    match cs.dropWhile (fun c => !decide (c = '.')) with
    | [] => if allDigits ip then some ((digitsToNat ip : Int) : Rat) else none
    | '.' :: fp =>
      if (ip.all Char.isDigit && fp.all Char.isDigit) && !(ip.isEmpty && fp.isEmpty) then
        some (mkRat (digitsToNat ip * 10 ^ fp.length + digitsToNat fp : Int) (10 ^ fp.length))
      else none
    | _ => none
  match s.toList with
  | '-' :: rest => (core rest).map (fun q => -q)
  | cs => core cs

/-- The per-column dtype family the CSV reader settles on for a whole column:
integers, then floats, then booleans, else plain strings. Empty fields are
missing values and do not constrain the choice. -/
inductive CsvKind where
  | int
  | float
  | bool
  | str

def csvColKind (cells : List String) : CsvKind :=
  let ne := cells.filter (fun s => !decide (s = ""))
  if ne.all (fun s => (parseIntCsv s).isSome) then .int
  else if ne.all (fun s => (parseFloatCsv s).isSome) then .float
  else if ne.all (fun s => s = "True" || s = "False") then .bool
  else .str

/-- Coerce one raw CSV field under the column's settled kind; an empty field is
a missing value (`NaN`). -/
def csvCellVal (k : CsvKind) (s : String) : PyVal :=
  if s = "" then .vnone
  else match k with
    | .int =>
      match parseIntCsv s with
      | some n => .vint n
      | none => .vstr s
    | .float =>
      match parseFloatCsv s with
      | some q => .vfloat q
      | none => .vstr s
    | .bool => if s = "True" then .vbool true else (if s = "False" then .vbool false else .vstr s)
    | .str => .vstr s

/-- The raw fields of column `i` across the file's rows (a short row reads as
missing fields). -/
def csvColumnCells (rows : List (List String)) (i : Nat) : List String :=
  rows.map (fun r => (r.get? i).getD "")

/-- Build the typed columns for header names starting at column index `i`. -/
def readCsvCols (rows : List (List String)) : Nat → List String → List (String × List PyVal)
  | _, [] => []
  | i, h :: hs =>
    let cells := csvColumnCells rows i
    (h, cells.map (csvCellVal (csvColKind cells))) :: readCsvCols rows (i + 1) hs

/-- `pd.read_csv(obj.get()["Body"], header=0)`: the header names the columns,
each column is coerced as a whole to the narrowest numeric/boolean family its
non-empty fields admit, and empty fields become missing values. -/
def read_csv (f : CsvFile) : RawFrame :=
  ⟨f.rows.length, readCsvCols f.rows 0 f.header⟩

/-! ## JSON record parsing (`json.loads` + `pd.json_normalize`) -/

/-- A parsed JSON document (`json.loads` output; numbers split into the int and
float cases exactly as Python does by literal shape). -/
inductive Json where
  | jnull
  | jbool (b : Bool)
  | jint (n : Int)
  | jnum (q : Rat)
  | jstr (s : String)
  | jarr (elems : List Json)
  | jobj (fields : List (String × Json))

/-- `isinstance(data, list)` on the decoded document. -/
def isArr : Json → Bool
  | .jarr _ => true
  | _ => false

/-- Push a parent key onto already-flattened child paths with a `.` separator. -/
def attachKey (k : String) (ps : List (String × PyVal)) : List (String × PyVal) :=
  ps.map (fun p => (k ++ "." ++ p.1, p.2))

mutual

/-- Flatten one JSON object's fields into dotted-path scalar cells, exactly as
`pd.json_normalize` does: nested objects recurse with `.`-joined paths, while
an array value is kept whole as one compound `object` cell at its own path. -/
def flattenFields : List (String × Json) → List (String × PyVal)
  | [] => []
  | (k, v) :: rest => flattenVal k v ++ flattenFields rest

/-- Flatten one field value sitting under key `k`. -/
def flattenVal (k : String) : Json → List (String × PyVal)
  | .jobj fs => attachKey k (flattenFields fs)
  | .jarr _ => [(k, .vcompound)]
  | .jnull => [(k, .vnone)]
  | .jbool b => [(k, .vbool b)]
  | .jint n => [(k, .vint n)]
  | .jnum q => [(k, .vfloat q)]
  | .jstr s => [(k, .vstr s)]

end

/-- A list comprehension over a fallible element transformation: any raising
element aborts the whole comprehension. -/
def mapOption {α β : Type} (g : α → Option β) : List α → Option (List β)
  | [] => some []
  | a :: as =>
    match g a, mapOption g as with
    | some b, some bs => some (b :: bs)
    | _, _ => none

/-- The flat records of one document: each element of a root array is one
record, a root object is one record; any non-object record (and any non-object,
non-array root) makes `pd.json_normalize` raise, modelled as `none`. -/
def recordsOfJson : Json → Option (List (List (String × PyVal)))
  | .jarr es => mapOption (fun e =>
      match e with
      | .jobj fs => some (flattenFields fs)
      | _ => none) es
  | .jobj fs => some [flattenFields fs]
  | _ => none

/-- Assemble flat records into a rectangular frame: columns in first-appearance
order across records, one row per record, missing paths filled with `NaN`. -/
def normalizeRecords (rs : List (List (String × PyVal))) : RawFrame :=
  let ks := rs.foldl (fun acc r => unionKeys acc (r.map Prod.fst)) []
  ⟨rs.length, ks.map (fun c => (c, rs.map (fun r => (alookup r c).getD .vnone)))⟩

/-- `pd.json_normalize(data)` for one decoded document. -/
def json_normalize (j : Json) : Option RawFrame :=
  (recordsOfJson j).map normalizeRecords

/-! ## Entry points -/

/-- One sampled S3 JSON object: identifying names plus its decoded document. -/
structure S3JsonObject where
  bucket_name : String
  key : String
  doc : Json

/-- The exceptions the entry points can raise. -/
inductive SchemaError where
  | noSampleData
  | structuralInconsistency (files : List String)
  | unmappedType (dtype : String)
  | invalidJson
  deriving DecidableEq, Repr

/-- Result of `generate_schema_from_csv`. -/
structure CsvSchemaResult where
  schema : List (String × String)
  deriving DecidableEq, Repr

/-- Result of `generate_schema_from_json`. -/
structure JsonSchemaResult where
  schema : List (String × String)
  top_level_array : Bool
  deriving DecidableEq, Repr

/-- `generate_schema_from_csv` (`schema.py` lines 20-45): sample, fail on no
data, read and concatenate the CSVs, convert dtypes, promote datetimes, map to
Snowflake tokens, apply overrides verbatim. -/
def generate_schema_from_csv (files : List CsvFile) (override : List (String × String)) :
    Except SchemaError CsvSchemaResult :=
  if files.isEmpty then .error .noSampleData
  else
    match get_schema_from_df (parse_datetime (convert_dtypes (concatFrames (files.map read_csv)))) with
    | .error d => .error (.unmappedType d)
    | .ok m => .ok ⟨schemaUpdate m override⟩

/-- The tail of `generate_schema_from_json` after the top-level-array check:
normalize every document, concatenate, convert, promote, map, override. -/
def jsonSchemaTail (files : List S3JsonObject) (override : List (String × String))
    (tla : Bool) : Except SchemaError JsonSchemaResult :=
  match mapOption (fun f => json_normalize f.doc) files with
  | none => .error .invalidJson
  | some frames =>
    match get_schema_from_df (parse_datetime (convert_dtypes (concatFrames frames))) with
    | .error d => .error (.unmappedType d)
    | .ok m => .ok ⟨schemaUpdate m override, tla⟩

/-- `generate_schema_from_json` (`schema.py` lines 48-97): sample, fail on no
data, require every document to agree on having a top-level array (raising a
`ValueError` naming the files without top-level arrays otherwise), then infer
the schema from the normalized documents. -/
def generate_schema_from_json (files : List S3JsonObject) (override : List (String × String)) :
    Except SchemaError JsonSchemaResult :=
  if files.isEmpty then .error .noSampleData
  else
    let is_list := files.map (fun f => isArr f.doc)
    if is_list.all (fun b => b) then jsonSchemaTail files override true
    else if is_list.any (fun b => b) then
      .error (.structuralInconsistency
        ((files.filter (fun f => !isArr f.doc)).map (fun f => f.bucket_name ++ "/" ++ f.key)))
    else jsonSchemaTail files override false

/-! ## Association-list lemmas -/

theorem alookup_eq_none_iff {α : Type} (m : List (String × α)) (c : String) :
    alookup m c = none ↔ c ∉ m.map Prod.fst := by
  induction m with
  | nil => simp [alookup]
  | cons p m ih =>
    obtain ⟨k, v⟩ := p
    by_cases hk : k = c
    · subst hk
      simp [alookup]
    · simp [alookup, hk, Ne.symm hk, ih]

theorem alookup_mem {α : Type} {m : List (String × α)} {c : String} {v : α}
    (h : alookup m c = some v) : (c, v) ∈ m := by
  induction m with
  | nil => simp [alookup] at h
  | cons p m ih =>
    obtain ⟨k, w⟩ := p
    by_cases hk : k = c
    · subst hk
      simp [alookup] at h
      simp [h]
    · simp [alookup, hk] at h
      exact List.mem_cons_of_mem _ (ih h)

theorem alookup_map_self {α : Type} (g : String → α) {ks : List String} {c : String}
    (h : c ∈ ks) : alookup (ks.map (fun k => (k, g k))) c = some (g c) := by
  induction ks with
  | nil => simp at h
  | cons k ks ih =>
    by_cases hk : k = c
    · subst hk
      simp [alookup]
    · rcases List.mem_cons.mp h with h1 | h1
      · exact absurd h1.symm hk
      · simpa [alookup, hk] using ih h1

theorem dictInsert_lookup_self (m : List (String × String)) (c t : String) :
    alookup (dictInsert m (c, t)) c = some t := by
  induction m with
  | nil => simp [dictInsert, alookup]
  | cons p m ih =>
    obtain ⟨k, v⟩ := p
    by_cases hk : k = c
    · subst hk
      simp [dictInsert, alookup]
    · simp [dictInsert, hk, alookup, ih]

theorem dictInsert_lookup_ne (m : List (String × String)) (p : String × String)
    {k : String} (h : k ≠ p.1) : alookup (dictInsert m p) k = alookup m k := by
  induction m with
  | nil => simp [dictInsert, alookup, Ne.symm h]
  | cons q m ih =>
    obtain ⟨a, b⟩ := q
    by_cases ha : a = p.1
    · subst ha
      simp [dictInsert, alookup, Ne.symm h]
    · by_cases hk : a = k
      · subst hk
        simp [dictInsert, ha, alookup]
      · simp [dictInsert, ha, alookup, hk, ih]

theorem dictInsert_idem (m : List (String × String)) (p : String × String) :
    dictInsert (dictInsert m p) p = dictInsert m p := by
  induction m with
  | nil => simp [dictInsert]
  | cons q m ih =>
    obtain ⟨a, b⟩ := q
    by_cases ha : a = p.1
    · simp [dictInsert, ha]
    · simp [dictInsert, ha, ih]

theorem dictInsert_of_lookup_none {m : List (String × String)} {c : String}
    (t : String) (h : alookup m c = none) : dictInsert m (c, t) = m ++ [(c, t)] := by
  induction m with
  | nil => simp [dictInsert]
  | cons q m ih =>
    obtain ⟨a, b⟩ := q
    by_cases ha : a = c
    · simp [alookup, ha] at h
    · simp [alookup, ha] at h
      simp [dictInsert, ha, ih h]

theorem dictInsert_keys_of_lookup_none {m : List (String × String)} {c : String}
    (t : String) (h : alookup m c = none) :
    (dictInsert m (c, t)).map Prod.fst = m.map Prod.fst ++ [c] := by
  rw [dictInsert_of_lookup_none t h]
  simp

theorem mem_dictInsert {m : List (String × String)} {p q : String × String}
    (h : q ∈ dictInsert m p) : q.2 = p.2 ∨ q ∈ m := by
  induction m with
  | nil =>
    simp [dictInsert] at h
    simp [h]
  | cons r m ih =>
    obtain ⟨a, b⟩ := r
    by_cases ha : a = p.1
    · simp [dictInsert, ha] at h
      rcases h with h | h
      · simp [h]
      · exact Or.inr (List.mem_cons_of_mem _ h)
    · simp only [dictInsert, ha, if_false, List.mem_cons] at h
      rcases h with h | h
      · exact Or.inr (by simp [h])
      · rcases ih h with h2 | h2
        · exact Or.inl h2
        · exact Or.inr (List.mem_cons_of_mem _ h2)

/-! ## Key-union lemmas -/

theorem mem_insertKey {acc : List String} {j k : String} :
    k ∈ insertKey acc j ↔ k ∈ acc ∨ k = j := by
  unfold insertKey
  by_cases h : j ∈ acc
  · simp only [h, if_true]
    constructor
    · exact Or.inl
    · intro hc
      rcases hc with hk | hk
      · exact hk
      · exact hk ▸ h
  · simp [h]

theorem nodup_insertKey {acc : List String} (h : acc.Nodup) (k : String) :
    (insertKey acc k).Nodup := by
  unfold insertKey
  by_cases hk : k ∈ acc
  · simpa [hk]
  · simp only [hk, if_false]
    have hd : acc.Disjoint [k] := by
      intro a ha hmem
      simp only [List.mem_singleton] at hmem
      exact hk (hmem ▸ ha)
    exact h.append (List.nodup_singleton k) hd

theorem mem_foldl_insertKey {l acc : List String} {k : String} :
    k ∈ l.foldl insertKey acc ↔ k ∈ acc ∨ k ∈ l := by
  induction l generalizing acc with
  | nil => simp
  | cons j l ih =>
    simp only [List.foldl_cons, ih, mem_insertKey, List.mem_cons]
    tauto

theorem nodup_foldl_insertKey {l acc : List String} (h : acc.Nodup) :
    (l.foldl insertKey acc).Nodup := by
  induction l generalizing acc with
  | nil => simpa
  | cons j l ih => exact ih (nodup_insertKey h j)

theorem foldl_insertKey_insertKey (acc s : List String) (k : String) :
    List.foldl insertKey acc (insertKey s k) = insertKey (List.foldl insertKey acc s) k := by
  by_cases hk : k ∈ s
  · have h1 : insertKey s k = s := by simp [insertKey, hk]
    have h2 : k ∈ List.foldl insertKey acc s := mem_foldl_insertKey.mpr (Or.inr hk)
    have h3 : insertKey (List.foldl insertKey acc s) k = List.foldl insertKey acc s := by
      simp [insertKey, h2]
    rw [h1, h3]
  · have h1 : insertKey s k = s ++ [k] := by simp [insertKey, hk]
    rw [h1, List.foldl_append]
    rfl

theorem foldl_insertKey_assoc (l s acc : List String) :
    List.foldl insertKey acc (List.foldl insertKey s l) =
      List.foldl insertKey (List.foldl insertKey acc s) l := by
  induction l generalizing s with
  | nil => rfl
  | cons k l ih =>
    simp only [List.foldl_cons]
    rw [ih (insertKey s k), foldl_insertKey_insertKey]

theorem foldl_insertKey_firstAppear (l acc : List String) :
    List.foldl insertKey acc (firstAppear l) = List.foldl insertKey acc l := by
  unfold firstAppear
  rw [foldl_insertKey_assoc]
  rfl

theorem foldl_unionKeys_eq_flatten (chunks : List (List String)) (acc : List String) :
    chunks.foldl unionKeys acc = List.foldl insertKey acc chunks.flatten := by
  induction chunks generalizing acc with
  | nil => rfl
  | cons c cs ih => simp [unionKeys, ih, List.foldl_append]

theorem foldl_insertKey_flatten_firstAppear (cs : List (List String)) (acc : List String) :
    List.foldl insertKey acc (List.map firstAppear cs).flatten =
      List.foldl insertKey acc cs.flatten := by
  induction cs generalizing acc with
  | nil => rfl
  | cons c cs ih =>
    simp only [List.map_cons, List.flatten_cons, List.foldl_append]
    rw [foldl_insertKey_firstAppear, ih]

/-! ## Frame lemmas -/

/-- Rectangularity: every column of a raw frame has one cell per row. -/
def RawWF (f : RawFrame) : Prop :=
  ∀ p ∈ f.cols, (p.2 : List PyVal).length = f.nrows

theorem parseCol_name (c : Col) : (parseCol c).name = c.name := by
  unfold parseCol
  split
  · split <;> rfl
  · rfl

theorem parseCol_vals (c : Col) : (parseCol c).vals = c.vals := by
  unfold parseCol
  split
  · split <;> rfl
  · rfl

theorem parse_datetime_nrows (f : Frame) : (parse_datetime f).nrows = f.nrows := rfl

theorem convert_dtypes_nrows (f : RawFrame) : (convert_dtypes f).nrows = f.nrows := rfl

theorem convert_dtypes_names (f : RawFrame) :
    (convert_dtypes f).cols.map Col.name = f.cols.map Prod.fst := by
  simp [convert_dtypes, List.map_map]

theorem parse_datetime_names (f : Frame) :
    (parse_datetime f).cols.map Col.name = f.cols.map Col.name := by
  simp only [parse_datetime, List.map_map]
  exact List.map_congr_left (fun c _ => parseCol_name c)

/-- The column names produced by `pd.concat`: the first-appearance union of the
frames' column names in sampling order. -/
theorem concatFrames_names (fs : List RawFrame) :
    (concatFrames fs).cols.map Prod.fst =
      firstAppear ((fs.map (fun f => f.cols.map Prod.fst)).flatten) := by
  show (List.map _ _).map Prod.fst = _
  rw [List.map_map]
  have h1 : (Prod.fst ∘ fun c => (c, ((fs.map (fun f => colVals f c)).flatten))) = id := rfl
  rw [h1, List.map_id]
  have h2 : fs.foldl (fun acc f => unionKeys acc (f.cols.map Prod.fst)) [] =
      (fs.map (fun f => f.cols.map Prod.fst)).foldl unionKeys [] := by
    rw [List.foldl_map]
  rw [h2, foldl_unionKeys_eq_flatten]
  rfl

theorem concatFrames_names_nodup (fs : List RawFrame) :
    ((concatFrames fs).cols.map Prod.fst).Nodup := by
  rw [concatFrames_names]
  exact nodup_foldl_insertKey List.nodup_nil

theorem concatFrames_lookup (fs : List RawFrame) {c : String}
    (h : c ∈ (concatFrames fs).cols.map Prod.fst) :
    alookup (concatFrames fs).cols c = some ((fs.map (fun f => colVals f c)).flatten) := by
  have hks : c ∈ fs.foldl (fun acc f => unionKeys acc (f.cols.map Prod.fst)) [] := by
    simpa [concatFrames, List.map_map] using h
  exact alookup_map_self _ hks

theorem colVals_length {f : RawFrame} (hf : RawWF f) (c : String) :
    (colVals f c).length = f.nrows := by
  unfold colVals
  cases h : alookup f.cols c with
  | none => simp
  | some vs => exact hf (c, vs) (alookup_mem h)

theorem rawWF_concatFrames {fs : List RawFrame} (h : ∀ f ∈ fs, RawWF f) :
    RawWF (concatFrames fs) := by
  intro p hp
  simp only [concatFrames, List.mem_map] at hp
  obtain ⟨c, _, rfl⟩ := hp
  show (List.flatten _).length = (fs.map (fun f => f.nrows)).sum
  rw [List.length_flatten, List.map_map]
  congr 1
  exact List.map_congr_left (fun f hf => colVals_length (h f hf) c)

theorem readCsvCols_mem_length (rows : List (List String)) :
    ∀ (i : Nat) (hs : List String) (p : String × List PyVal),
      p ∈ readCsvCols rows i hs → p.2.length = rows.length := by
  intro i hs
  induction hs generalizing i with
  | nil => intro p hp; simp [readCsvCols] at hp
  | cons h hs ih =>
    intro p hp
    simp only [readCsvCols, List.mem_cons] at hp
    rcases hp with rfl | hp
    · simp [csvColumnCells]
    · exact ih _ p hp

theorem rawWF_read_csv (f : CsvFile) : RawWF (read_csv f) := by
  intro p hp
  exact readCsvCols_mem_length f.rows 0 f.header p hp

theorem rawWF_normalizeRecords (rs : List (List (String × PyVal))) :
    RawWF (normalizeRecords rs) := by
  intro p hp
  simp only [normalizeRecords, List.mem_map] at hp
  obtain ⟨c, _, rfl⟩ := hp
  simp only [List.length_map]
  rfl

theorem readCsvCols_names (rows : List (List String)) :
    ∀ (i : Nat) (hs : List String), (readCsvCols rows i hs).map Prod.fst = hs := by
  intro i hs
  induction hs generalizing i with
  | nil => rfl
  | cons h hs ih => simp [readCsvCols, ih]

theorem read_csv_names (f : CsvFile) : (read_csv f).cols.map Prod.fst = f.header :=
  readCsvCols_names f.rows 0 f.header

theorem normalizeRecords_names (rs : List (List (String × PyVal))) :
    (normalizeRecords rs).cols.map Prod.fst =
      firstAppear ((rs.map (fun r => r.map Prod.fst)).flatten) := by
  show (List.map _ _).map Prod.fst = _
  rw [List.map_map]
  have h1 : (Prod.fst ∘ fun c => (c, rs.map (fun r => (alookup r c).getD .vnone))) = id := rfl
  rw [h1, List.map_id]
  have h2 : rs.foldl (fun acc r => unionKeys acc (r.map Prod.fst)) [] =
      (rs.map (fun r => r.map Prod.fst)).foldl unionKeys [] := by
    rw [List.foldl_map]
  rw [h2, foldl_unionKeys_eq_flatten]
  rfl

/-! ## Schema-construction lemmas -/

/-- The closed set of Snowflake type tokens the lookup table can emit. -/
def snowflakeTokens : List String :=
  ["NUMBER(38,0)", "NUMBER(38,8)", "VARCHAR", "BOOLEAN", "VARIANT",
   "TIMESTAMP WITHOUT TIME ZONE"]

theorem lookupTable_some_mem {d t : String} (h : lookupTable d = some t) :
    t ∈ snowflakeTokens := by
  have hm := alookup_mem h
  simp only [PANDAS_TO_SNOWFLAKE, List.mem_cons, Prod.mk.injEq, List.not_mem_nil,
    or_false] at hm
  rcases hm with ⟨_, rfl⟩ | ⟨_, rfl⟩ | ⟨_, rfl⟩ | ⟨_, rfl⟩ | ⟨_, rfl⟩ | ⟨_, rfl⟩ <;>
    simp [snowflakeTokens]

theorem schemaGo_lookup_preserved {n : Nat} :
    ∀ {cols : List Col} {m s : List (String × String)} {k : String},
      schemaGo n m cols = .ok s → k ∉ cols.map Col.name → alookup s k = alookup m k := by
  intro cols
  induction cols with
  | nil =>
    intro m s k h _
    simp only [schemaGo] at h
    cases h
    rfl
  | cons c cs ih =>
    intro m s k h hk
    simp only [List.map_cons, List.mem_cons, not_or] at hk
    simp only [schemaGo] at h
    cases ht : colToken n c with
    | none => rw [ht] at h; cases h
    | some t =>
      rw [ht] at h
      rw [ih h hk.2, dictInsert_lookup_ne _ _ hk.1]

theorem schemaGo_ok_keys {n : Nat} :
    ∀ {cols : List Col} {m s : List (String × String)},
      schemaGo n m cols = .ok s → (m.map Prod.fst ++ cols.map Col.name).Nodup →
      s.map Prod.fst = m.map Prod.fst ++ cols.map Col.name := by
  intro cols
  induction cols with
  | nil =>
    intro m s h _
    simp only [schemaGo] at h
    cases h
    simp
  | cons c cs ih =>
    intro m s h hd
    simp only [schemaGo] at h
    cases ht : colToken n c with
    | none => rw [ht] at h; cases h
    | some t =>
      rw [ht] at h
      have hcm : c.name ∉ m.map Prod.fst := by
        have := (List.nodup_append.mp hd).2.2
        intro hmem
        exact this hmem (by simp)
      have hnone : alookup m c.name = none := (alookup_eq_none_iff m c.name).mpr hcm
      have hkeys := dictInsert_keys_of_lookup_none t hnone
      have hd2 : ((dictInsert m (c.name, t)).map Prod.fst ++ cs.map Col.name).Nodup := by
        rw [hkeys, List.append_assoc, List.singleton_append]
        simpa using hd
      rw [ih h hd2, hkeys, List.append_assoc, List.singleton_append]
      simp

theorem schemaGo_lookup {n : Nat} :
    ∀ {cols : List Col} {m s : List (String × String)} {c : Col},
      schemaGo n m cols = .ok s → (m.map Prod.fst ++ cols.map Col.name).Nodup →
      c ∈ cols → ∃ t, colToken n c = some t ∧ alookup s c.name = some t := by
  intro cols
  induction cols with
  | nil => intro m s c _ _ hc; simp at hc
  | cons c0 cs ih =>
    intro m s c h hd hc
    simp only [schemaGo] at h
    cases ht : colToken n c0 with
    | none => rw [ht] at h; cases h
    | some t =>
      rw [ht] at h
      rcases List.mem_cons.mp hc with rfl | hc2
      · refine ⟨t, ht, ?_⟩
        have hnotin : c.name ∉ cs.map Col.name := by
          have := hd.of_append_right
          exact (List.nodup_cons.mp (by simpa using this)).1
        rw [schemaGo_lookup_preserved h hnotin, dictInsert_lookup_self]
      · have hcm : c0.name ∉ m.map Prod.fst := by
          have := (List.nodup_append.mp hd).2.2
          intro hmem
          exact this hmem (by simp)
        have hnone : alookup m c0.name = none := (alookup_eq_none_iff m c0.name).mpr hcm
        have hd2 : ((dictInsert m (c0.name, t)).map Prod.fst ++ cs.map Col.name).Nodup := by
          rw [dictInsert_keys_of_lookup_none t hnone, List.append_assoc,
            List.singleton_append]
          simpa using hd
        exact ih h hd2 hc2

theorem schemaGo_error_of_unmapped {n : Nat} :
    ∀ {cols : List Col} {c : Col}, c ∈ cols → colToken n c = none →
      ∀ m, ∃ d, schemaGo n m cols = .error d := by
  intro cols
  induction cols with
  | nil => intro c hc; simp at hc
  | cons c0 cs ih =>
    intro c hc hnone m
    rcases List.mem_cons.mp hc with rfl | hc2
    · exact ⟨colDtype n c, by simp only [schemaGo, hnone]⟩
    · cases ht : colToken n c0 with
      | none => exact ⟨colDtype n c0, by simp only [schemaGo, ht]⟩
      | some t =>
        obtain ⟨d, hd⟩ := ih hc2 hnone (dictInsert m (c0.name, t))
        exact ⟨d, by simp only [schemaGo, ht, hd]⟩

theorem schemaGo_tokens {n : Nat} :
    ∀ {cols : List Col} {m s : List (String × String)},
      schemaGo n m cols = .ok s → (∀ p ∈ m, p.2 ∈ snowflakeTokens) →
      ∀ p ∈ s, p.2 ∈ snowflakeTokens := by
  intro cols
  induction cols with
  | nil =>
    intro m s h hm
    simp only [schemaGo] at h
    cases h
    exact hm
  | cons c cs ih =>
    intro m s h hm
    simp only [schemaGo] at h
    cases ht : colToken n c with
    | none => rw [ht] at h; cases h
    | some t =>
      rw [ht] at h
      refine ih h ?_
      intro p hp
      rcases mem_dictInsert hp with h2 | h2
      · rw [h2]
        exact lookupTable_some_mem ht
      · exact hm p h2

theorem filter_none_length_iff (vs : List PyVal) :
    vs.length = (vs.filter isNoneV).length ↔ ∀ v ∈ vs, v = PyVal.vnone := by
  constructor
  · intro h v hv
    by_contra hne
    have hlt : (vs.filter isNoneV).length < vs.length := by
      refine List.length_filter_lt_length_iff_exists.mpr ?_
      exact ⟨v, hv, by simp [isNoneV, hne]⟩
    omega
  · intro h
    rw [List.filter_eq_self.mpr (fun a ha => by simp [isNoneV, h a ha])]

/-- With one cell per row, the `is_empty` test of `_get_schema_from_df` holds
exactly when every cell of the column is null. -/
theorem isEmptyCol_iff {n : Nat} {c : Col} (h : c.vals.length = n) :
    isEmptyCol n c = true ↔ ∀ v ∈ c.vals, v = PyVal.vnone := by
  unfold isEmptyCol
  rw [decide_eq_true_iff]
  subst h
  exact filter_none_length_iff c.vals

/-! ## Entry-point plumbing lemmas -/

theorem jsonSchemaTail_ok {files : List S3JsonObject} {ov : List (String × String)}
    {tla : Bool} {out : JsonSchemaResult} (h : jsonSchemaTail files ov tla = .ok out) :
    ∃ frames m, mapOption (fun f => json_normalize f.doc) files = some frames ∧
      get_schema_from_df (parse_datetime (convert_dtypes (concatFrames frames))) = .ok m ∧
      out = ⟨schemaUpdate m ov, tla⟩ := by
  unfold jsonSchemaTail at h
  split at h
  · cases h
  · next frames hm =>
    split at h
    · cases h
    · next m hs =>
      cases h
      exact ⟨frames, m, hm, hs, rfl⟩

theorem jsonSchemaTail_error {files : List S3JsonObject} {ov : List (String × String)}
    {tla : Bool} {e : SchemaError} (h : jsonSchemaTail files ov tla = .error e) :
    e = .invalidJson ∨ ∃ d, e = .unmappedType d := by
  unfold jsonSchemaTail at h
  split at h
  · cases h
    exact Or.inl rfl
  · next frames hm =>
    split at h
    · next d hs =>
      cases h
      exact Or.inr ⟨d, rfl⟩
    · cases h

theorem csv_ok {files : List CsvFile} {ov : List (String × String)}
    {out : CsvSchemaResult} (h : generate_schema_from_csv files ov = .ok out) :
    files.isEmpty = false ∧ ∃ m,
      get_schema_from_df (parse_datetime (convert_dtypes (concatFrames (files.map read_csv)))) =
        .ok m ∧ out = ⟨schemaUpdate m ov⟩ := by
  unfold generate_schema_from_csv at h
  cases he : files.isEmpty with
  | true => rw [he] at h; simp at h
  | false =>
    rw [he] at h
    simp only [Bool.false_eq_true, if_false] at h
    cases hs : get_schema_from_df (parse_datetime (convert_dtypes (concatFrames (files.map read_csv)))) with
    | error d => rw [hs] at h; cases h
    | ok m =>
      rw [hs] at h
      cases h
      exact ⟨rfl, m, rfl, rfl⟩

theorem mapOption_some_map {α β : Type} (g : α → Option β) (hfun : α → β)
    (hg : ∀ a b, g a = some b → b = hfun a) :
    ∀ {l : List α} {bs : List β}, mapOption g l = some bs → bs = l.map hfun := by
  intro l
  induction l with
  | nil =>
    intro bs h
    cases h
    rfl
  | cons a as ih =>
    intro bs h
    simp only [mapOption] at h
    split at h
    · next b bs2 hb hbs =>
      cases h
      rw [List.map_cons, ← hg a b hb, ← ih hbs]
    · cases h

theorem mapOption_length {α β : Type} (g : α → Option β) :
    ∀ {l : List α} {bs : List β}, mapOption g l = some bs → bs.length = l.length := by
  intro l
  induction l with
  | nil =>
    intro bs h
    cases h
    rfl
  | cons a as ih =>
    intro bs h
    simp only [mapOption] at h
    split at h
    · next b bs2 hb hbs =>
      cases h
      simp [ih hbs]
    · cases h

theorem json_normalize_some {j : Json} {fr : RawFrame} (h : json_normalize j = some fr) :
    fr = normalizeRecords ((recordsOfJson j).getD []) := by
  unfold json_normalize at h
  cases hr : recordsOfJson j with
  | none => rw [hr] at h; cases h
  | some rs =>
    rw [hr] at h
    cases h
    rfl

theorem json_ok {files : List S3JsonObject} {ov : List (String × String)}
    {out : JsonSchemaResult} (h : generate_schema_from_json files ov = .ok out) :
    ∃ m tla,
      get_schema_from_df (parse_datetime (convert_dtypes (concatFrames
        (files.map (fun f => normalizeRecords ((recordsOfJson f.doc).getD [])))))) = .ok m ∧
      out = ⟨schemaUpdate m ov, tla⟩ := by
  unfold generate_schema_from_json at h
  cases he : files.isEmpty with
  | true => rw [he] at h; simp at h
  | false =>
    rw [he] at h
    simp only [Bool.false_eq_true, if_false] at h
    have tail : ∀ tla, jsonSchemaTail files ov tla = .ok out →
        ∃ m tla2,
          get_schema_from_df (parse_datetime (convert_dtypes (concatFrames
            (files.map (fun f => normalizeRecords ((recordsOfJson f.doc).getD [])))))) =
            .ok m ∧ out = ⟨schemaUpdate m ov, tla2⟩ := by
      intro tla htail
      obtain ⟨frames, m, hm, hs, rfl⟩ := jsonSchemaTail_ok htail
      have hsh := mapOption_some_map _ _ (fun f fr hfr => json_normalize_some hfr) hm
      subst hsh
      exact ⟨m, tla, hs, rfl⟩
    split at h
    · exact tail true h
    · split at h
      · simp at h
      · exact tail false h

/-- C6: both entry points raise `NoSampleData` (`FileNotFoundError`) exactly
when the sampler returned an empty object list, and in that case nothing else
is returned. -/
theorem C6_no_sample_data :
    (∀ (files : List CsvFile) (ov : List (String × String)),
      generate_schema_from_csv files ov = .error .noSampleData ↔ files = []) ∧
    (∀ (files : List S3JsonObject) (ov : List (String × String)),
      generate_schema_from_json files ov = .error .noSampleData ↔ files = []) := by
  constructor
  · intro files ov
    constructor
    · intro h
      unfold generate_schema_from_csv at h
      cases he : files.isEmpty with
      | true => exact List.isEmpty_iff.mp he
      | false =>
        rw [he] at h
        simp only [Bool.false_eq_true, if_false] at h
        cases hs : get_schema_from_df
            (parse_datetime (convert_dtypes (concatFrames (files.map read_csv)))) with
        | error d => rw [hs] at h; simp at h
        | ok m => rw [hs] at h; simp at h
    · rintro rfl
      rfl
  · intro files ov
    constructor
    · intro h
      unfold generate_schema_from_json at h
      cases he : files.isEmpty with
      | true => exact List.isEmpty_iff.mp he
      | false =>
        rw [he] at h
        simp only [Bool.false_eq_true, if_false] at h
        split at h
        · rcases jsonSchemaTail_error h with h2 | ⟨d, h2⟩ <;> simp at h2
        · split at h
          · simp at h
          · rcases jsonSchemaTail_error h with h2 | ⟨d, h2⟩ <;> simp at h2
    · rintro rfl
      rfl

/-- C6 instantiated at the empty sample. -/
theorem C6_no_sample_data_witness :
    generate_schema_from_csv [] [] = .error .noSampleData ∧
    generate_schema_from_json [] [] = .error .noSampleData :=
  ⟨(C6_no_sample_data.1 [] []).mpr rfl, (C6_no_sample_data.2 [] []).mpr rfl⟩

/-- C7: overrides are absolute (after applying an override the final schema maps
its column to its token verbatim, whatever was inferred), idempotent (applying
the same override twice equals applying it once), an override for a column the
inferred schema lacks silently appends that column, and through both entry
points an overridden column ends at its override token. -/
theorem C7_overrides :
    (∀ (m : List (String × String)) (c t : String),
      alookup (schemaUpdate m [(c, t)]) c = some t) ∧
    (∀ (m : List (String × String)) (c t : String),
      schemaUpdate (schemaUpdate m [(c, t)]) [(c, t)] = schemaUpdate m [(c, t)]) ∧
    (∀ (m : List (String × String)) (c t : String),
      alookup m c = none → schemaUpdate m [(c, t)] = m ++ [(c, t)]) ∧
    (∀ (files : List CsvFile) (c t : String) (out : CsvSchemaResult),
      generate_schema_from_csv files [(c, t)] = .ok out → alookup out.schema c = some t) ∧
    (∀ (files : List S3JsonObject) (c t : String) (out : JsonSchemaResult),
      generate_schema_from_json files [(c, t)] = .ok out → alookup out.schema c = some t) := by
  refine ⟨?_, ?_, ?_, ?_, ?_⟩
  · intro m c t
    exact dictInsert_lookup_self m c t
  · intro m c t
    exact dictInsert_idem m (c, t)
  · intro m c t h
    exact dictInsert_of_lookup_none t h
  · intro files c t out h
    obtain ⟨-, m, -, rfl⟩ := csv_ok h
    exact dictInsert_lookup_self m c t
  · intro files c t out h
    unfold generate_schema_from_json at h
    cases he : files.isEmpty with
    | true => rw [he] at h; simp at h
    | false =>
      rw [he] at h
      simp only [Bool.false_eq_true, if_false] at h
      split at h
      · obtain ⟨frames, m, -, -, rfl⟩ := jsonSchemaTail_ok h
        exact dictInsert_lookup_self m c t
      · split at h
        · simp at h
        · obtain ⟨frames, m, -, -, rfl⟩ := jsonSchemaTail_ok h
          exact dictInsert_lookup_self m c t

/-- C7 instantiated: an override rewriting an inferred column and one adding a
missing column, applied through `generate_schema_from_csv`. -/
theorem C7_overrides_witness :
    alookup (schemaUpdate [("x", "VARCHAR")] [("x", "VARIANT")]) "x" = some "VARIANT" ∧
    schemaUpdate (schemaUpdate [("x", "VARCHAR")] [("x", "VARIANT")]) [("x", "VARIANT")] =
      schemaUpdate [("x", "VARCHAR")] [("x", "VARIANT")] ∧
    schemaUpdate [("x", "VARCHAR")] [("z", "BOOLEAN")] =
      [("x", "VARCHAR")] ++ [("z", "BOOLEAN")] :=
  ⟨C7_overrides.1 [("x", "VARCHAR")] "x" "VARIANT",
   C7_overrides.2.1 [("x", "VARCHAR")] "x" "VARIANT",
   C7_overrides.2.2.1 [("x", "VARCHAR")] "z" "BOOLEAN" rfl⟩

/-- C9: the type-mapper table holds exactly the six fixed entries; a dtype
outside the table maps to nothing; and a non-empty column whose dtype the table
lacks makes `_get_schema_from_df` abort with an error instead of defaulting. -/
theorem C9_type_mapper :
    (lookupTable "Int64" = some "NUMBER(38,0)" ∧
     lookupTable "Float64" = some "NUMBER(38,8)" ∧
     lookupTable "string" = some "VARCHAR" ∧
     lookupTable "boolean" = some "BOOLEAN" ∧
     lookupTable "object" = some "VARIANT" ∧
     lookupTable "datetime64[ns]" = some "TIMESTAMP WITHOUT TIME ZONE") ∧
    (∀ d, d ∉ PANDAS_TO_SNOWFLAKE.map Prod.fst → lookupTable d = none) ∧
    (∀ f : Frame, (∃ c ∈ f.cols, colToken f.nrows c = none) →
      ∃ d, get_schema_from_df f = .error d) := by
  refine ⟨⟨rfl, rfl, rfl, rfl, rfl, rfl⟩, ?_, ?_⟩
  · intro d hd
    exact (alookup_eq_none_iff PANDAS_TO_SNOWFLAKE d).mpr hd
  · intro f h
    obtain ⟨c, hc, hnone⟩ := h
    exact schemaGo_error_of_unmapped hc hnone []

/-- C9 instantiated: dtype `Int32` has no table entry, and a frame holding a
non-null `Int32` column makes `_get_schema_from_df` abort. -/
theorem C9_type_mapper_witness :
    lookupTable "Int32" = none ∧
    (∃ d, get_schema_from_df ⟨1, [⟨"x", "Int32", [PyVal.vint 1]⟩]⟩ = .error d) := by
  constructor
  · exact C9_type_mapper.2.1 "Int32" (by decide)
  · exact C9_type_mapper.2.2 ⟨1, [⟨"x", "Int32", [PyVal.vint 1]⟩]⟩
      ⟨⟨"x", "Int32", [PyVal.vint 1]⟩, by simp, by decide⟩

/-- C3: `_parse_datetime` acts on each column independently; a `string` column
is promoted to `datetime64[ns]` exactly when every cell converts under the
strict format (nulls convert to `NaT`), is left untouched if any cell fails,
and a non-`string` column is never touched. -/
theorem C3_datetime_promotion :
    (∀ f : Frame, (parse_datetime f).nrows = f.nrows ∧
      (parse_datetime f).cols = f.cols.map parseCol) ∧
    (∀ c : Col, c.dtype = "string" →
      ((∀ v ∈ c.vals, tsCellOk v = true) →
        parseCol c = ⟨c.name, "datetime64[ns]", c.vals⟩) ∧
      ((∃ v ∈ c.vals, tsCellOk v = false) → parseCol c = c)) ∧
    (∀ c : Col, c.dtype ≠ "string" → parseCol c = c) := by
  refine ⟨fun f => ⟨rfl, rfl⟩, ?_, ?_⟩
  · intro c hdt
    constructor
    · intro hall
      have hp : promotable c.vals = true := List.all_eq_true.mpr hall
      simp [parseCol, hdt, hp]
    · intro hex
      obtain ⟨v, hv, hfalse⟩ := hex
      have hp : promotable c.vals = false := by
        refine List.all_eq_false.mpr ⟨v, hv, ?_⟩
        simp [hfalse]
      simp [parseCol, hdt, hp]
  · intro c hdt
    simp [parseCol, hdt]

/-- C3 instantiated: one fully-parsing string column is promoted, one with a
single bad cell stays `string`, and an `Int64` column is untouched. -/
theorem C3_datetime_promotion_witness :
    parseCol ⟨"d", "string", [PyVal.vstr "2020-01-01 00:00:00", PyVal.vnone]⟩ =
      ⟨"d", "datetime64[ns]", [PyVal.vstr "2020-01-01 00:00:00", PyVal.vnone]⟩ ∧
    parseCol ⟨"d", "string", [PyVal.vstr "2020-01-01 00:00:00", PyVal.vstr "nope"]⟩ =
      ⟨"d", "string", [PyVal.vstr "2020-01-01 00:00:00", PyVal.vstr "nope"]⟩ ∧
    parseCol ⟨"n", "Int64", [PyVal.vint 3]⟩ = ⟨"n", "Int64", [PyVal.vint 3]⟩ := by
  refine ⟨?_, ?_, ?_⟩
  · exact (C3_datetime_promotion.2.1 _ rfl).1 (by decide)
  · exact (C3_datetime_promotion.2.1 _ rfl).2 ⟨PyVal.vstr "nope", by simp, by decide⟩
  · exact C3_datetime_promotion.2.2 _ (by decide)

/-- C2: a column of the merged frame all of whose cells are null (whether from
explicit nulls or from records/files lacking the column) ends with type
`object` and final token `VARIANT`, whatever dtype pandas gave it. -/
theorem C2_all_null_variant :
    ∀ (f : Frame) (c : Col), c ∈ f.cols → (f.cols.map Col.name).Nodup →
      c.vals.length = f.nrows → (∀ v ∈ c.vals, v = PyVal.vnone) →
      ∀ s, get_schema_from_df (parse_datetime f) = .ok s →
        alookup s c.name = some "VARIANT" := by
  intro f c hc hnd hlen hnull s hok
  have hc2 : parseCol c ∈ (parse_datetime f).cols := List.mem_map_of_mem parseCol hc
  have hnd2 : ((parse_datetime f).cols.map Col.name).Nodup := by
    rw [parse_datetime_names]
    exact hnd
  obtain ⟨t, htok, hlk⟩ := schemaGo_lookup hok (by simpa using hnd2) hc2
  have hemp : isEmptyCol (parse_datetime f).nrows (parseCol c) = true := by
    refine (isEmptyCol_iff ?_).mpr ?_
    · rw [parseCol_vals, parse_datetime_nrows]
      exact hlen
    · intro v hv
      rw [parseCol_vals] at hv
      exact hnull v hv
  have hvar : colToken (parse_datetime f).nrows (parseCol c) = some "VARIANT" := by
    unfold colToken colDtype
    rw [hemp]
    rfl
  rw [htok] at hvar
  cases hvar
  rw [parseCol_name] at hlk
  exact hlk

/-- C2 instantiated: a one-column frame whose two cells are both null maps the
column to `VARIANT`. -/
theorem C2_all_null_variant_witness :
    alookup [("x", "VARIANT")] "x" = some "VARIANT" :=
  C2_all_null_variant ⟨2, [⟨"x", "Int64", [PyVal.vnone, PyVal.vnone]⟩]⟩
    ⟨"x", "Int64", [PyVal.vnone, PyVal.vnone]⟩ (by simp) (by simp) rfl
    (by intro v hv; simpa using hv) [("x", "VARIANT")] rfl

/-- C4 as stated is false: in its own concrete scenario — two sampled CSV
files, one with column `x` holding only the integer-like strings `"1","2"`,
the other holding only `"a","b"` — the first file's column is read as integers,
the concatenated column mixes integers with strings, `convert_dtypes` leaves it
at dtype `object`, and the final token is `VARIANT`, not the claimed `VARCHAR`
least upper bound. -/
theorem C4_mixed_types_counterexample :
    generate_schema_from_csv [⟨["x"], [["1"], ["2"]]⟩, ⟨["x"], [["a"], ["b"]]⟩] [] =
      .ok ⟨[("x", "VARIANT")]⟩ ∧
    ([("x", "VARIANT")] : List (String × String)) ≠ [("x", "VARCHAR")] :=
  ⟨rfl, by decide⟩

/-- C4 amended: cross-file mixes do not widen to the least upper bound of
`Boolean < Integer < Float < String`. A column integer-typed in one CSV file
and string-typed in another stays dtype `object` and maps to `VARIANT` (not
`VARCHAR`); likewise a boolean/integer mix gives `VARIANT`. Only the
integer/float mix widens (to `Float64` → `NUMBER(38,8)`), and a column that is
string-typed in every file stays `String` → `VARCHAR`. -/
theorem C4_mixed_types_amended :
    generate_schema_from_csv [⟨["x"], [["1"], ["2"]]⟩, ⟨["x"], [["a"], ["b"]]⟩] [] =
      .ok ⟨[("x", "VARIANT")]⟩ ∧
    generate_schema_from_csv [⟨["x"], [["True"]]⟩, ⟨["x"], [["1"]]⟩] [] =
      .ok ⟨[("x", "VARIANT")]⟩ ∧
    generate_schema_from_csv [⟨["x"], [["1"]]⟩, ⟨["x"], [["1.5"]]⟩] [] =
      .ok ⟨[("x", "NUMBER(38,8)")]⟩ ∧
    generate_schema_from_csv [⟨["x"], [["a"], ["b"]]⟩, ⟨["x"], [["c"]]⟩] [] =
      .ok ⟨[("x", "VARCHAR")]⟩ :=
  ⟨rfl, rfl, rfl, rfl⟩

/-- C5 as stated is false on the dominance side: with one top-level-array file
and two object files, the non-array files dominate, yet the raised error still
enumerates the two non-array files, not the single non-conforming array file
the claim predicts for that case. -/
theorem C5_structural_counterexample :
    generate_schema_from_json
        [⟨"b", "arr.json", .jarr []⟩, ⟨"b", "o1.json", .jobj []⟩, ⟨"b", "o2.json", .jobj []⟩]
        [] =
      .error (.structuralInconsistency ["b/o1.json", "b/o2.json"]) ∧
    (["b/o1.json", "b/o2.json"] : List String) ≠ ["b/arr.json"] :=
  ⟨rfl, by decide⟩

/-- C5 amended: with a non-empty sample, `generate_schema_from_json` raises the
structural-inconsistency error iff the files are mixed (some but not all have
an array root), and the error then enumerates `bucket/key` of exactly the files
without a top-level array — always the non-array side, regardless of which side
dominates; on agreement the call (when it succeeds) reports `top_level_array`
true iff every file has an array root. -/
theorem C5_structural_amended :
    ∀ (files : List S3JsonObject) (ov : List (String × String)), files ≠ [] →
      (((∃ f ∈ files, isArr f.doc = true) ∧ (∃ f ∈ files, isArr f.doc = false)) ↔
        generate_schema_from_json files ov =
          .error (.structuralInconsistency
            ((files.filter (fun f => !isArr f.doc)).map
              (fun f => f.bucket_name ++ "/" ++ f.key)))) ∧
      (∀ out, generate_schema_from_json files ov = .ok out →
        (out.top_level_array = true ↔ ∀ f ∈ files, isArr f.doc = true)) := by
  intro files ov hne
  have hie : files.isEmpty = false := by simpa [List.isEmpty_iff] using hne
  by_cases hall : ∀ f ∈ files, isArr f.doc = true
  · have hallb : (files.map (fun f => isArr f.doc)).all (fun b => b) = true := by
      rw [List.all_eq_true]
      intro x hx
      rcases List.mem_map.mp hx with ⟨f, hf, rfl⟩
      exact hall f hf
    have hres : generate_schema_from_json files ov = jsonSchemaTail files ov true := by
      unfold generate_schema_from_json
      simp [hie, hallb]
    constructor
    · constructor
      · rintro ⟨-, f, hf, hfalse⟩
        rw [hall f hf] at hfalse
        cases hfalse
      · intro h
        rw [hres] at h
        rcases jsonSchemaTail_error h with h2 | ⟨d, h2⟩ <;> simp at h2
    · intro out hout
      rw [hres] at hout
      obtain ⟨frames, m, -, -, rfl⟩ := jsonSchemaTail_ok hout
      simpa using hall
  · by_cases hany : ∃ f ∈ files, isArr f.doc = true
    · have hanyb : (files.map (fun f => isArr f.doc)).any (fun b => b) = true := by
        rw [List.any_eq_true]
        obtain ⟨f, hf, htrue⟩ := hany
        exact ⟨isArr f.doc, List.mem_map_of_mem _ hf, htrue⟩
      have hallb : (files.map (fun f => isArr f.doc)).all (fun b => b) = false := by
        rw [Bool.eq_false_iff]
        intro hcon
        have hmap := List.all_eq_true.mp hcon
        exact hall (fun f hf => by simpa using hmap _ (List.mem_map_of_mem _ hf))
      have hres : generate_schema_from_json files ov =
          .error (.structuralInconsistency
            ((files.filter (fun f => !isArr f.doc)).map
              (fun f => f.bucket_name ++ "/" ++ f.key))) := by
        unfold generate_schema_from_json
        simp [hie, hallb, hanyb]
      constructor
      · constructor
        · intro _
          exact hres
        · intro _
          refine ⟨hany, ?_⟩
          push_neg at hall
          obtain ⟨f, hmem, hfalse⟩ := hall
          exact ⟨f, hmem, by simpa using hfalse⟩
      · intro out hout
        rw [hres] at hout
        cases hout
    · have hanyb : (files.map (fun f => isArr f.doc)).any (fun b => b) = false := by
        rw [Bool.eq_false_iff]
        intro hcon
        obtain ⟨x, hx, hxt⟩ := List.any_eq_true.mp hcon
        rcases List.mem_map.mp hx with ⟨f, hf, rfl⟩
        exact hany ⟨f, hf, by simpa using hxt⟩
      have hallb : (files.map (fun f => isArr f.doc)).all (fun b => b) = false := by
        rw [Bool.eq_false_iff]
        intro hcon
        have hmap := List.all_eq_true.mp hcon
        exact hall (fun f hf => by simpa using hmap _ (List.mem_map_of_mem _ hf))
      have hres : generate_schema_from_json files ov = jsonSchemaTail files ov false := by
        unfold generate_schema_from_json
        simp [hie, hallb, hanyb]
      constructor
      · constructor
        · rintro ⟨⟨f, hf, htrue⟩, -⟩
          exact absurd ⟨f, hf, htrue⟩ hany
        · intro h
          rw [hres] at h
          rcases jsonSchemaTail_error h with h2 | ⟨d, h2⟩ <;> simp at h2
      · intro out hout
        rw [hres] at hout
        obtain ⟨frames, m, -, -, rfl⟩ := jsonSchemaTail_ok hout
        constructor
        · intro hcon
          cases hcon
        · intro hcon
          exact absurd ⟨files.head hne, List.head_mem hne, hcon _ (List.head_mem hne)⟩ hany

/-- C5 amended, instantiated at a two-file mixed sample: the error names the
single file without a top-level array. -/
theorem C5_structural_amended_witness :
    generate_schema_from_json
        [⟨"b", "arr2.json", .jarr []⟩, ⟨"b", "obj2.json", .jobj []⟩] [] =
      .error (.structuralInconsistency ["b/obj2.json"]) := by
  have h := (C5_structural_amended
      [⟨"b", "arr2.json", .jarr []⟩, ⟨"b", "obj2.json", .jobj []⟩] []
      (by intro hcon; cases hcon)).1.mp
    ⟨⟨⟨"b", "arr2.json", .jarr []⟩, List.mem_cons_self _ _, rfl⟩,
     ⟨⟨"b", "obj2.json", .jobj []⟩, List.mem_cons_of_mem _ (List.mem_cons_self _ _), rfl⟩⟩
  exact h

/-- C10: with the default empty override, every type token either entry point
returns lies in the closed six-token set of the mapping table; the inference
pipeline can emit nothing else. -/
theorem C10_closed_token_set :
    (∀ (files : List CsvFile) (out : CsvSchemaResult),
      generate_schema_from_csv files [] = .ok out →
      ∀ p ∈ out.schema,
        p.2 ∈ (["NUMBER(38,0)", "NUMBER(38,8)", "VARCHAR", "BOOLEAN", "VARIANT",
          "TIMESTAMP WITHOUT TIME ZONE"] : List String)) ∧
    (∀ (files : List S3JsonObject) (out : JsonSchemaResult),
      generate_schema_from_json files [] = .ok out →
      ∀ p ∈ out.schema,
        p.2 ∈ (["NUMBER(38,0)", "NUMBER(38,8)", "VARCHAR", "BOOLEAN", "VARIANT",
          "TIMESTAMP WITHOUT TIME ZONE"] : List String)) := by
  constructor
  · intro files out h
    obtain ⟨-, m, hs, rfl⟩ := csv_ok h
    exact schemaGo_tokens hs (fun p hp => absurd hp (List.not_mem_nil p))
  · intro files out h
    obtain ⟨m, tla, hs, rfl⟩ := json_ok h
    exact schemaGo_tokens hs (fun p hp => absurd hp (List.not_mem_nil p))

/-- C10 instantiated at one CSV and one JSON sample. -/
theorem C10_closed_token_set_witness :
    ("NUMBER(38,0)" : String) ∈ (["NUMBER(38,0)", "NUMBER(38,8)", "VARCHAR", "BOOLEAN",
      "VARIANT", "TIMESTAMP WITHOUT TIME ZONE"] : List String) ∧
    ("VARCHAR" : String) ∈ (["NUMBER(38,0)", "NUMBER(38,8)", "VARCHAR", "BOOLEAN",
      "VARIANT", "TIMESTAMP WITHOUT TIME ZONE"] : List String) :=
  ⟨C10_closed_token_set.1 [⟨["x"], [["1"]]⟩] ⟨[("x", "NUMBER(38,0)")]⟩ rfl
      ("x", "NUMBER(38,0)") (by decide),
   C10_closed_token_set.2 [⟨"b", "k.json", .jobj [("a", .jstr "hello")]⟩]
      ⟨[("a", "VARCHAR")], false⟩ rfl ("a", "VARCHAR") (by decide)⟩

theorem normalizeRecords_lookup (rs : List (List (String × PyVal))) {c : String}
    (h : c ∈ (normalizeRecords rs).cols.map Prod.fst) :
    alookup (normalizeRecords rs).cols c =
      some (rs.map (fun r => (alookup r c).getD .vnone)) := by
  have hks : c ∈ rs.foldl (fun acc r => unionKeys acc (r.map Prod.fst)) [] := by
    simpa [normalizeRecords, List.map_map] using h
  exact alookup_map_self _ hks

/-- A compound (array) cell anywhere in a column pins its converted dtype to
`object`. -/
theorem convertName_compound {vs : List PyVal} (h : PyVal.vcompound ∈ vs) :
    convertName vs = "object" := by
  have hnn : PyVal.vcompound ∈ vs.filter (fun v => !isNoneV v) :=
    List.mem_filter.mpr ⟨h, by decide⟩
  have h1 : (vs.filter (fun v => !isNoneV v)).isEmpty = false := by
    rcases hfe : vs.filter (fun v => !isNoneV v) with _ | ⟨a, as⟩
    · rw [hfe] at hnn
      simp at hnn
    · rfl
  have h2 : (vs.filter (fun v => !isNoneV v)).all isNumV = false :=
    List.all_eq_false.mpr ⟨_, hnn, by decide⟩
  have h3 : (vs.filter (fun v => !isNoneV v)).all isBoolV = false :=
    List.all_eq_false.mpr ⟨_, hnn, by decide⟩
  have h4 : (vs.filter (fun v => !isNoneV v)).all isStrV = false :=
    List.all_eq_false.mpr ⟨_, hnn, by decide⟩
  unfold convertName
  simp [h1, h2, h3, h4]

/-- A merged-frame column containing a compound cell ends at token `VARIANT`
after dtype conversion, datetime promotion and the Snowflake mapping. -/
theorem variant_of_compound_mem {CF : RawFrame} {c : String} {V : List PyVal}
    {m : List (String × String)}
    (hpair : (c, V) ∈ CF.cols)
    (hnd : (CF.cols.map Prod.fst).Nodup)
    (hvcc : PyVal.vcompound ∈ V)
    (hs : get_schema_from_df (parse_datetime (convert_dtypes CF)) = .ok m) :
    alookup m c = some "VARIANT" := by
  have hcol2 : (⟨c, convertName V, V⟩ : Col) ∈ (convert_dtypes CF).cols :=
    List.mem_map_of_mem _ hpair
  have hobj := convertName_compound hvcc
  rw [hobj] at hcol2
  have hpc : parseCol ⟨c, "object", V⟩ = ⟨c, "object", V⟩ := by
    simp [parseCol]
  have hcol4 : (⟨c, "object", V⟩ : Col) ∈ (parse_datetime (convert_dtypes CF)).cols := by
    have hh := List.mem_map_of_mem parseCol hcol2
    rw [hpc] at hh
    exact hh
  have hnd2 : ((List.map Prod.fst ([] : List (String × String))) ++
      (parse_datetime (convert_dtypes CF)).cols.map Col.name).Nodup := by
    rw [List.map_nil, List.nil_append, parse_datetime_names, convert_dtypes_names]
    exact hnd
  obtain ⟨t, htok, hlk⟩ := schemaGo_lookup hs hnd2 hcol4
  have hvar : colToken (parse_datetime (convert_dtypes CF)).nrows
      (⟨c, "object", V⟩ : Col) = some "VARIANT" := by
    unfold colToken colDtype
    split <;> rfl
  rw [htok] at hvar
  cases hvar
  exact hlk

/-- The column paths present in any parsed flat record of one JSON document,
in record order. -/
def jsonFileColumns (j : Json) : List String :=
  (((recordsOfJson j).getD []).map (fun r => r.map Prod.fst)).flatten

/-- C1: on success (with the default empty override) the returned schema's
column list is exactly the first-appearance deduplication of the column paths
observed across the sampled files in sampling order: every observed column
appears (also those absent from some files), each exactly once, ordered by
first appearance; and a column appears iff some sampled file observes it. -/
theorem C1_schema_column_union :
    (∀ (files : List CsvFile) (out : CsvSchemaResult),
      (∀ f ∈ files, f.header.Nodup) →
      generate_schema_from_csv files [] = .ok out →
      out.schema.map Prod.fst = firstAppear ((files.map CsvFile.header).flatten) ∧
      (out.schema.map Prod.fst).Nodup ∧
      (∀ k, k ∈ out.schema.map Prod.fst ↔ ∃ f ∈ files, k ∈ f.header)) ∧
    (∀ (files : List S3JsonObject) (out : JsonSchemaResult),
      generate_schema_from_json files [] = .ok out →
      out.schema.map Prod.fst =
        firstAppear ((files.map (fun f => jsonFileColumns f.doc)).flatten) ∧
      (out.schema.map Prod.fst).Nodup ∧
      (∀ k, k ∈ out.schema.map Prod.fst ↔ ∃ f ∈ files, k ∈ jsonFileColumns f.doc)) := by
  constructor
  · intro files out hnd h
    obtain ⟨-, m, hs, rfl⟩ := csv_ok h
    have hframe : (parse_datetime (convert_dtypes
        (concatFrames (files.map read_csv)))).cols.map Col.name =
        (concatFrames (files.map read_csv)).cols.map Prod.fst := by
      rw [parse_datetime_names, convert_dtypes_names]
    have hmaps : (files.map read_csv).map (fun f => f.cols.map Prod.fst) =
        files.map CsvFile.header := by
      rw [List.map_map]
      exact List.map_congr_left (fun f _ => read_csv_names f)
    have hconcat : (concatFrames (files.map read_csv)).cols.map Prod.fst =
        firstAppear ((files.map CsvFile.header).flatten) := by
      rw [concatFrames_names, hmaps]
    have hnodup2 : ((List.map Prod.fst ([] : List (String × String))) ++
        (parse_datetime (convert_dtypes
          (concatFrames (files.map read_csv)))).cols.map Col.name).Nodup := by
      rw [List.map_nil, List.nil_append, hframe]
      exact concatFrames_names_nodup (files.map read_csv)
    have hkeys : (schemaUpdate m []).map Prod.fst =
        firstAppear ((files.map CsvFile.header).flatten) := by
      have := schemaGo_ok_keys hs hnodup2
      rw [List.map_nil, List.nil_append] at this
      show m.map Prod.fst = _
      rw [this, hframe, hconcat]
    refine ⟨hkeys, ?_, ?_⟩
    · rw [hkeys]
      exact nodup_foldl_insertKey List.nodup_nil
    · intro k
      rw [hkeys]
      unfold firstAppear
      rw [mem_foldl_insertKey]
      simp [List.mem_flatten]
  · intro files out h
    obtain ⟨m, tla, hs, rfl⟩ := json_ok h
    have hframe : (parse_datetime (convert_dtypes (concatFrames
        (files.map (fun f => normalizeRecords ((recordsOfJson f.doc).getD [])))))).cols.map
          Col.name =
        (concatFrames
          (files.map (fun f => normalizeRecords ((recordsOfJson f.doc).getD [])))).cols.map
          Prod.fst := by
      rw [parse_datetime_names, convert_dtypes_names]
    have hmaps : (files.map (fun f => normalizeRecords ((recordsOfJson f.doc).getD []))).map
        (fun fr => fr.cols.map Prod.fst) =
        files.map (fun f => firstAppear (jsonFileColumns f.doc)) := by
      rw [List.map_map]
      refine List.map_congr_left (fun f _ => ?_)
      exact normalizeRecords_names ((recordsOfJson f.doc).getD [])
    have hconcat : (concatFrames
        (files.map (fun f => normalizeRecords ((recordsOfJson f.doc).getD [])))).cols.map
          Prod.fst =
        firstAppear ((files.map (fun f => jsonFileColumns f.doc)).flatten) := by
      rw [concatFrames_names, hmaps]
      have hmm : files.map (fun f => firstAppear (jsonFileColumns f.doc)) =
          (files.map (fun f => jsonFileColumns f.doc)).map firstAppear := by
        rw [List.map_map]
        rfl
      rw [hmm]
      unfold firstAppear
      exact foldl_insertKey_flatten_firstAppear (files.map (fun f => jsonFileColumns f.doc)) []
    have hnodup2 : ((List.map Prod.fst ([] : List (String × String))) ++
        (parse_datetime (convert_dtypes (concatFrames
          (files.map (fun f => normalizeRecords ((recordsOfJson f.doc).getD [])))))).cols.map
            Col.name).Nodup := by
      rw [List.map_nil, List.nil_append, hframe]
      exact concatFrames_names_nodup _
    have hkeys : (schemaUpdate m []).map Prod.fst =
        firstAppear ((files.map (fun f => jsonFileColumns f.doc)).flatten) := by
      have := schemaGo_ok_keys hs hnodup2
      rw [List.map_nil, List.nil_append] at this
      show m.map Prod.fst = _
      rw [this, hframe, hconcat]
    refine ⟨hkeys, ?_, ?_⟩
    · rw [hkeys]
      exact nodup_foldl_insertKey List.nodup_nil
    · intro k
      rw [hkeys]
      unfold firstAppear
      rw [mem_foldl_insertKey]
      simp [List.mem_flatten]

/-- C1 instantiated: a two-file CSV sample with overlapping headers and a
two-file JSON sample with overlapping paths, both yielding each observed column
exactly once in first-appearance order. -/
theorem C1_schema_column_union_witness :
    [("x", "NUMBER(38,0)"), ("y", "VARCHAR"), ("z", "BOOLEAN")].map Prod.fst =
      firstAppear ((([⟨["x", "y"], [["1", "a"]]⟩,
        ⟨["y", "z"], [["b", "True"]]⟩] : List CsvFile).map CsvFile.header).flatten) :=
  (C1_schema_column_union.1
    [⟨["x", "y"], [["1", "a"]]⟩, ⟨["y", "z"], [["b", "True"]]⟩]
    ⟨[("x", "NUMBER(38,0)"), ("y", "VARCHAR"), ("z", "BOOLEAN")]⟩
    (by decide) rfl).1

/-- C8: the JSON flattener joins nested-object paths with dots recursively
(`{"a":{"b":1}}` gives column `a.b`); an array value at any depth is one
compound leaf at its own path, never expanded element-wise, and any record
observing a compound value at a path forces that column's final token to
`VARIANT`; a root array yields one flat record per element while a root object
yields a single record. -/
theorem C8_json_flattening :
    (flattenFields [("a", Json.jobj [("b", Json.jint 1)])] = [("a.b", PyVal.vint 1)]) ∧
    (∀ (k : String) (fs : List (String × Json)),
      (flattenVal k (.jobj fs)).map Prod.fst =
        (flattenFields fs).map (fun p => k ++ "." ++ p.1)) ∧
    (∀ (k : String) (es : List Json), flattenVal k (.jarr es) = [(k, PyVal.vcompound)]) ∧
    (∀ (es : List Json) (rs : List (List (String × PyVal))),
      recordsOfJson (.jarr es) = some rs → rs.length = es.length) ∧
    (∀ fs, recordsOfJson (.jobj fs) = some [flattenFields fs]) ∧
    (∀ (files : List S3JsonObject) (out : JsonSchemaResult) (c : String),
      generate_schema_from_json files [] = .ok out →
      (∃ f ∈ files, ∃ r ∈ (recordsOfJson f.doc).getD [],
        alookup r c = some PyVal.vcompound) →
      alookup out.schema c = some "VARIANT") := by
  refine ⟨rfl, ?_, fun k es => rfl, fun es rs h => mapOption_length _ h, fun fs => rfl, ?_⟩
  · intro k fs
    show (attachKey k (flattenFields fs)).map Prod.fst = _
    simp only [attachKey, List.map_map]
    rfl
  · intro files out c hok hobs
    obtain ⟨m, tla, hs, rfl⟩ := json_ok hok
    obtain ⟨f, hf, r, hr, hlook⟩ := hobs
    have hfr : normalizeRecords ((recordsOfJson f.doc).getD []) ∈
        files.map (fun f => normalizeRecords ((recordsOfJson f.doc).getD [])) :=
      List.mem_map_of_mem _ hf
    have hcr : c ∈ r.map Prod.fst := List.mem_map_of_mem Prod.fst (alookup_mem hlook)
    have hcfile : c ∈ (normalizeRecords ((recordsOfJson f.doc).getD [])).cols.map Prod.fst := by
      rw [normalizeRecords_names]
      unfold firstAppear
      rw [mem_foldl_insertKey]
      right
      rw [List.mem_flatten]
      exact ⟨r.map Prod.fst, List.mem_map_of_mem _ hr, hcr⟩
    have hfilecol := normalizeRecords_lookup ((recordsOfJson f.doc).getD []) hcfile
    have hvc : PyVal.vcompound ∈
        ((recordsOfJson f.doc).getD []).map (fun r2 => (alookup r2 c).getD .vnone) := by
      have hval : ((fun r2 => (alookup r2 c).getD PyVal.vnone) r) = PyVal.vcompound := by
        show (alookup r c).getD PyVal.vnone = PyVal.vcompound
        rw [hlook]
        rfl
      rw [← hval]
      exact List.mem_map_of_mem _ hr
    have hcconcat : c ∈ (concatFrames
        (files.map (fun f => normalizeRecords ((recordsOfJson f.doc).getD [])))).cols.map
          Prod.fst := by
      rw [concatFrames_names]
      unfold firstAppear
      rw [mem_foldl_insertKey]
      right
      rw [List.mem_flatten]
      exact ⟨(normalizeRecords ((recordsOfJson f.doc).getD [])).cols.map Prod.fst,
        List.mem_map_of_mem _ hfr, hcfile⟩
    have hconcatcol := concatFrames_lookup
      (files.map (fun f => normalizeRecords ((recordsOfJson f.doc).getD []))) hcconcat
    have hvcc : PyVal.vcompound ∈
        ((files.map (fun f => normalizeRecords ((recordsOfJson f.doc).getD []))).map
          (fun fr => colVals fr c)).flatten := by
      rw [List.mem_flatten]
      refine ⟨colVals (normalizeRecords ((recordsOfJson f.doc).getD [])) c,
        List.mem_map_of_mem _ hfr, ?_⟩
      unfold colVals
      rw [hfilecol]
      exact hvc
    exact variant_of_compound_mem (alookup_mem hconcatcol)
      (concatFrames_names_nodup _) hvcc hs

/-- C8 instantiated: a single object whose field `arr` holds an array maps
column `arr` to `VARIANT`, through the whole JSON entry point. -/
theorem C8_json_flattening_witness :
    alookup [("arr", "VARIANT")] "arr" = some "VARIANT" :=
  C8_json_flattening.2.2.2.2.2
    [⟨"b", "k.json", .jobj [("arr", .jarr [.jint 1])]⟩]
    ⟨[("arr", "VARIANT")], false⟩ "arr" rfl
    ⟨⟨"b", "k.json", .jobj [("arr", .jarr [.jint 1])]⟩, List.mem_cons_self _ _,
      [("arr", PyVal.vcompound)], List.mem_cons_self _ _, rfl⟩

end Pypelayer
